import Mathlib

/-!
# Verification of the sow performance scoring and ML pipeline

Shallow embedding of `app/scoring/engine.py`, `app/scoring/ml_features.py`
and `app/scoring/ml_engine.py`.  Numeric values are modelled by `ℚ`
(SQL NULL / pandas NaN by `Option ℚ`).  Floating-point `math.sqrt` is
abstracted by an explicit parameter `sqrtQ : ℚ → ℚ`; no claim below
depends on the numeric value of a square root.
-/

namespace SowScoring

/-- Shrinkage parameter `ALPHA = 3` from `engine.py`. -/
def ALPHA : ℕ := 3

/-- ParityScore weight `W_LIVE_BORN = 0.45`. -/
def W_LIVE_BORN : ℚ := 45/100

/-- ParityScore weight `W_TOTAL_BORN = 0.27`. -/
def W_TOTAL_BORN : ℚ := 27/100

/-- ParityScore weight `W_STILLBORN = 0.18`. -/
def W_STILLBORN : ℚ := 18/100

/-- ParityScore weight `W_OWN_RATE = 0.10`. -/
def W_OWN_RATE : ℚ := 10/100

/-- TotalScore axis weight `W_PEAK = 0.35`. -/
def W_PEAK : ℚ := 35/100

/-- TotalScore axis weight `W_STABILITY = 0.25`. -/
def W_STABILITY : ℚ := 25/100

/-- TotalScore axis weight `W_SUSTAIN = 0.25`. -/
def W_SUSTAIN : ℚ := 25/100

/-- TotalScore axis weight `W_OFFSPRING = 0.15`. -/
def W_OFFSPRING : ℚ := 15/100

/-- Offspring quality sub-weight `W_W_RATE = 0.60`. -/
def W_W_RATE : ℚ := 60/100

/-- Offspring quality sub-weight `W_PS_RATE = 0.40`. -/
def W_PS_RATE : ℚ := 40/100

/-- Arithmetic mean of a list (`sum(values)/len(values)`). -/
def listMean (l : List ℚ) : ℚ := l.sum / l.length

/-- Population variance (`sum((v-m)**2 for v in values)/len(values)`). -/
def listVar (l : List ℚ) : ℚ :=
  ((l.map (fun v => (v - listMean l) ^ 2)).sum) / l.length

/-- Model of `_mean_sd` from `engine.py`: for fewer than two values return
`(values[0] if values else 0.0, 0.0)`, otherwise the mean and the
population standard deviation `sqrt(var)` (square root abstracted). -/
def mean_sd (sqrtQ : ℚ → ℚ) (values : List ℚ) : ℚ × ℚ :=
  if values.length < 2 then (values.head?.getD 0, 0)
  else (listMean values, sqrtQ (listVar values))

/-- Model of `_zscore` from `engine.py`: `0.0` when the value is missing or the
standard deviation is zero, otherwise `(v - mean)/sd`, negated when
`invert` is set. -/
def zscore (value : Option ℚ) (mean sd : ℚ) (invert : Bool) : ℚ :=
  match value with
  | none => 0
  | some v => if sd = 0 then 0 else (if invert then -((v - mean) / sd) else (v - mean) / sd)

/-- The shrinkage factor `n/(n+ALPHA)` with `ALPHA = 3`. -/
def shrinkF (n : ℕ) : ℚ := (n : ℚ) / ((n : ℚ) + (ALPHA : ℚ))

/-- The pattern `_mean_sd(vals) if vals else (0, 0)` used for every
cohort statistic in `run_scoring`. -/
def statPair (sqrtQ : ℚ → ℚ) (vals : List ℚ) : ℚ × ℚ :=
  if vals.isEmpty then (0, 0) else mean_sd sqrtQ vals

/-- One row of `farrowing_records` as selected by `run_scoring`
(`ORDER BY individual_id, parity`). -/
structure FarrowRow where
  individual_id : String
  parity : ℕ
  weaned : Option ℚ
  foster : Option ℚ
  born_alive : Option ℚ
  total_born : Option ℚ
  stillborn : Option ℚ
deriving DecidableEq

/-- Model of `ParityRow` after Step 1 of `run_scoring` (`own_w`, `own_rate` filled). -/
structure PRow extends FarrowRow where
  own_w : Option ℚ := none
  own_rate : Option ℚ := none
deriving DecidableEq

/-- Step 1 of `run_scoring`: `own_w = weaned - (foster or 0)` when
`weaned` is present, and `own_rate = own_w/weaned` when `weaned > 0`. -/
def computeOwn (r : FarrowRow) : PRow :=
  match r.weaned with
  | none => { r with own_w := none, own_rate := none }
  | some w =>
    let f := r.foster.getD 0
    let ow := w - f
    { r with own_w := some ow,
             own_rate := if 0 < w then some (ow / w) else none }

/-- Keys of a Python `dict` built by repeated `setdefault`: the distinct
key values in order of first occurrence. -/
def firstOccs {α κ : Type} [DecidableEq κ] (key : α → κ) (l : List α) : List κ :=
  l.foldl (fun acc a => if key a ∈ acc then acc else acc ++ [key a]) []

/-- The rows of one parity cohort, in input order (`by_parity[k]`). -/
def cohortOf (pd : List PRow) (k : ℕ) : List PRow :=
  pd.filter (fun p => decide (p.parity = k))

/-- A sow's total number of parity records across all cohorts
(the `sow_n` counter of `run_scoring`). -/
def sowTotalCount (pd : List PRow) (sid : String) : ℕ :=
  (pd.filter (fun p => decide (p.individual_id = sid))).length

/-- Model of `sow_n.get(pr.individual_id, 1)`: the count, defaulting to 1. -/
def sowN (pd : List PRow) (sid : String) : ℕ :=
  let c := sowTotalCount pd sid
  if c = 0 then 1 else c

/-- The five per-cohort mean/sd pairs computed in Step 2 of `run_scoring`. -/
structure CohortStats where
  m_ow : ℚ
  s_ow : ℚ
  m_lb : ℚ
  s_lb : ℚ
  m_tb : ℚ
  s_tb : ℚ
  m_sb : ℚ
  s_sb : ℚ
  m_or : ℚ
  s_or : ℚ
deriving DecidableEq

/-- Cohort statistics for one parity group (Step 2 of `run_scoring`). -/
def cohortZStats (sqrtQ : ℚ → ℚ) (g : List PRow) : CohortStats :=
  let pow := statPair sqrtQ (g.filterMap (fun p => p.own_w))
  let plb := statPair sqrtQ (g.filterMap (fun p => p.born_alive))
  let ptb := statPair sqrtQ (g.filterMap (fun p => p.total_born))
  let psb := statPair sqrtQ (g.filterMap (fun p => p.stillborn))
  let por := statPair sqrtQ (g.filterMap (fun p => p.own_rate))
  { m_ow := pow.1, s_ow := pow.2, m_lb := plb.1, s_lb := plb.2,
    m_tb := ptb.1, s_tb := ptb.2, m_sb := psb.1, s_sb := psb.2,
    m_or := por.1, s_or := por.2 }

/-- One row of `parity_scores` before ranking. -/
structure PRes where
  individual_id : String
  parity : ℕ
  own_weaned : Option ℚ
  own_rate : Option ℚ
  z_own_weaned : ℚ
  z_live_born : ℚ
  z_total_born : ℚ
  z_stillborn : ℚ
  z_own_rate : ℚ
  parity_score : ℚ
deriving DecidableEq

/-- Inner loop of Step 2 of `run_scoring`: shrinkage-scaled z-scores and
the weighted `parity_score` for one row. -/
def scoreRow (pd : List PRow) (st : CohortStats) (pr : PRow) : PRes :=
  let n := sowN pd pr.individual_id
  let shrink := shrinkF n
  let z_ow := zscore pr.own_w st.m_ow st.s_ow false * shrink
  let z_lb := zscore pr.born_alive st.m_lb st.s_lb false * shrink
  let z_tb := zscore pr.total_born st.m_tb st.s_tb false * shrink
  let z_sb := zscore pr.stillborn st.m_sb st.s_sb true * shrink
  let z_or := zscore pr.own_rate st.m_or st.s_or false * shrink
  { individual_id := pr.individual_id, parity := pr.parity,
    own_weaned := pr.own_w, own_rate := pr.own_rate,
    z_own_weaned := z_ow, z_live_born := z_lb, z_total_born := z_tb,
    z_stillborn := z_sb, z_own_rate := z_or,
    parity_score := W_LIVE_BORN * z_lb + W_TOTAL_BORN * z_tb +
      W_STILLBORN * z_sb + W_OWN_RATE * z_or }

/-- Parity keys in first-occurrence order (`by_parity` dict key order). -/
def parityKeys (pd : List PRow) : List ℕ := firstOccs (fun p => p.parity) pd

/-- Model of `parity_results` of `run_scoring`: rows grouped by cohort in
first-occurrence key order, each cohort in input order. -/
def parityResults (sqrtQ : ℚ → ℚ) (fr : List FarrowRow) : List PRes :=
  let pd := fr.map computeOwn
  (parityKeys pd).flatMap (fun k =>
    let g := cohortOf pd k
    let st := cohortZStats sqrtQ g
    g.map (scoreRow pd st))

/-! ## Stable sorting and rank assignment (Steps 3 and 6 of `run_scoring`)

Python's `list.sort`/`sorted` are stable; a stable sort is uniquely
determined by the comparison key, so the insertion sort below is an exact
model of `sorted(group, key=..., reverse=True)`.  `keep a b = true` means
`b` stays in front of the element `a` being inserted. -/

/-- Insert `a` into `l`, skipping every element `b` with `keep a b`. -/
def insB {α : Type} (keep : α → α → Bool) (a : α) : List α → List α
  | [] => [a]
  | b :: l => if keep a b then b :: insB keep a l else a :: b :: l

/-- Stable insertion sort: elements are inserted from right to left, and
an inserted (earlier) element is placed before later elements it ties with. -/
def sortB {α : Type} (keep : α → α → Bool) (l : List α) : List α :=
  l.foldr (insB keep) []

/-- Model of `sorted(g, key=key, reverse=True)`: stable descending sort by a `ℚ` key. -/
def sortDesc {α : Type} (key : α → ℚ) (l : List α) : List α :=
  sortB (fun a b => decide (key a < key b)) l

/-- Model of `recs.sort(key=lambda x: x["parity"])`: stable ascending sort by a `ℕ` key. -/
def sortAscNat {α : Type} (key : α → ℕ) (l : List α) : List α :=
  sortB (fun a b => decide (key b < key a)) l

/-- Walk a ranked (already sorted) list assigning `rank_all = i+1` to
every element and `rank_active = c+1` to the active ones, fusing the two
`enumerate(..., 1)` loops of `run_scoring` (the second enumerates the
filtered active sublist); inactive elements get `none`. -/
def rankList {α : Type} (act : α → Bool) : List α → ℕ → ℕ → List (α × ℕ × Option ℕ)
  | [], _, _ => []
  | a :: l, i, c =>
    if act a then (a, i + 1, some (c + 1)) :: rankList act l (i + 1) (c + 1)
    else (a, i + 1, none) :: rankList act l (i + 1) c

/-- Steps 3/6 of `run_scoring`: sort descending by score (stably), then
assign `rank_all` over the whole list and `rank_active` over the active
sublist. -/
def assignRanks {α : Type} (act : α → Bool) (key : α → ℚ) (g : List α) :
    List (α × ℕ × Option ℕ) :=
  rankList act (sortDesc key g) 0 0

/-- Step 3 of `run_scoring` for one parity cohort: the cohort's
`parity_results` rows (in `parity_results` order) with
`rank_all`/`rank_active` attached. -/
def rankedParityCohort (sqrtQ : ℚ → ℚ) (fr : List FarrowRow)
    (active : List String) (k : ℕ) : List (PRes × ℕ × Option ℕ) :=
  assignRanks (fun r => decide (r.individual_id ∈ active))
    (fun r => r.parity_score)
    ((parityResults sqrtQ fr).filter (fun r => decide (r.parity = k)))

/-! ## Sow-level aggregation (Steps 4-6 of `run_scoring`) -/

/-- A sow's `parity_results` rows sorted by parity ascending
(`recs.sort(key=lambda x: x["parity"])`). -/
def sowRecs (results : List PRes) (sid : String) : List PRes :=
  sortAscNat (fun r => r.parity)
    (results.filter (fun r => decide (r.individual_id = sid)))

/-- Peak: mean of the parity-2/3 scores, else mean of all scores, else 0. -/
def peakOf (recs : List PRes) : ℚ :=
  let scores := recs.map (fun r => r.parity_score)
  let peak_scores :=
    (recs.filter (fun r => decide (r.parity = 2 ∨ r.parity = 3))).map
      (fun r => r.parity_score)
  if peak_scores.isEmpty then (if scores.isEmpty then 0 else listMean scores)
  else listMean peak_scores

/-- Stability: negated population variance, `0` with fewer than 2 scores. -/
def stabilityOf (scores : List ℚ) : ℚ :=
  if 2 ≤ scores.length then -(listVar scores) else 0

/-- Sustain: mean of the second half minus mean of the first half,
splitting at `len // 2`; `0` with fewer than 2 scores. -/
def sustainOf (scores : List ℚ) : ℚ :=
  if 2 ≤ scores.length then
    let mid := scores.length / 2
    listMean (scores.drop mid) - listMean (scores.take mid)
  else 0

/-- One row of `piglets` as selected in Step 5 of `run_scoring`
(the SQL `WHERE dam_id IS NOT NULL` filter is applied before this model;
`rank` and `ps_shipment` may be NULL). -/
structure PigletRow where
  dam_id : String
  rank : Option String
  ps_shipment : Option String
deriving DecidableEq

/-- Model of `dam_w_total`: number of W-rank piglets of a dam. -/
def damWTotal (pig : List PigletRow) (dam : String) : ℕ :=
  (pig.filter (fun p => decide (p.dam_id = dam ∧ p.rank = some "W"))).length

/-- Model of `dam_w_promoted`: W-rank piglets of a dam with `ps_shipment = 'W'`. -/
def damWPromoted (pig : List PigletRow) (dam : String) : ℕ :=
  (pig.filter (fun p =>
    decide (p.dam_id = dam ∧ p.rank = some "W" ∧ p.ps_shipment = some "W"))).length

/-- Model of `dam_l_total`: number of A/B/C-rank piglets of a dam. -/
def damLTotal (pig : List PigletRow) (dam : String) : ℕ :=
  (pig.filter (fun p => decide (p.dam_id = dam ∧
    (p.rank = some "A" ∨ p.rank = some "B" ∨ p.rank = some "C")))).length

/-- Model of `dam_ps_sold`: A/B/C-rank piglets of a dam with `ps_shipment = '○'`. -/
def damPsSold (pig : List PigletRow) (dam : String) : ℕ :=
  (pig.filter (fun p => decide (p.dam_id = dam ∧
    (p.rank = some "A" ∨ p.rank = some "B" ∨ p.rank = some "C") ∧
    p.ps_shipment = some "○"))).length

/-- Model of `w_rates[dam]`: promotion rate, defined only when the dam has at
least one W-rank piglet (the `if total > 0` guard). -/
def wRate (pig : List PigletRow) (dam : String) : Option ℚ :=
  let t := damWTotal pig dam
  if 0 < t then some ((damWPromoted pig dam : ℚ) / (t : ℚ)) else none

/-- Model of `ps_rates[dam]`: sold rate over A/B/C piglets, when defined. -/
def psRate (pig : List PigletRow) (dam : String) : Option ℚ :=
  let t := damLTotal pig dam
  if 0 < t then some ((damPsSold pig dam : ℚ) / (t : ℚ)) else none

/-- Keys of `dam_w_total` in insertion order: dams in order of first
occurrence among W-rank piglet rows. -/
def wDams (pig : List PigletRow) : List String :=
  firstOccs (fun p => p.dam_id) (pig.filter (fun p => decide (p.rank = some "W")))

/-- Keys of `dam_l_total` in insertion order. -/
def lDams (pig : List PigletRow) : List String :=
  firstOccs (fun p => p.dam_id)
    (pig.filter (fun p =>
      decide (p.rank = some "A" ∨ p.rank = some "B" ∨ p.rank = some "C")))

/-- Step 5 of `run_scoring`: offspring quality
`0.6*z(W_rate) + 0.4*z(PS_rate)` for one sow; a sow absent from the rate
dictionaries contributes `z = 0`. -/
def offspringQuality (sqrtQ : ℚ → ℚ) (pig : List PigletRow) (sid : String) : ℚ :=
  let wr_vals := (wDams pig).filterMap (wRate pig)
  let pr_vals := (lDams pig).filterMap (psRate pig)
  let pw := statPair sqrtQ wr_vals
  let pp := statPair sqrtQ pr_vals
  let z_wr := match wRate pig sid with
    | some r => zscore (some r) pw.1 pw.2 false
    | none => 0
  let z_pr := match psRate pig sid with
    | some r => zscore (some r) pp.1 pp.2 false
    | none => 0
  W_W_RATE * z_wr + W_PS_RATE * z_pr

/-- One row of `sow_scores` before ranking. -/
structure SowScore where
  individual_id : String
  peak : ℚ
  stability : ℚ
  sustain : ℚ
  offspring_quality : ℚ
  total_score : ℚ
deriving DecidableEq

/-- Steps 4-5 of `run_scoring`: one `sow_scores` row per sow, in
first-occurrence order of `individual_id` within `parity_results`
(the `sow_parity` dict insertion order). -/
def sowScoresList (sqrtQ : ℚ → ℚ) (fr : List FarrowRow) (pig : List PigletRow) :
    List SowScore :=
  let results := parityResults sqrtQ fr
  (firstOccs (fun r => r.individual_id) results).map (fun sid =>
    let recs := sowRecs results sid
    let scores := recs.map (fun r => r.parity_score)
    let pk := peakOf recs
    let st := stabilityOf scores
    let su := sustainOf scores
    let oq := offspringQuality sqrtQ pig sid
    { individual_id := sid, peak := pk, stability := st, sustain := su,
      offspring_quality := oq,
      total_score := W_PEAK * pk + W_STABILITY * st + W_SUSTAIN * su +
        W_OFFSPRING * oq })

/-- Step 6 of `run_scoring`: sow-level ranking.  The Python sort key is
`total_score or 0`, which maps `0.0` to `0` and is therefore the same
function of the score as the score itself. -/
def rankedSowScores (sqrtQ : ℚ → ℚ) (fr : List FarrowRow)
    (active : List String) (pig : List PigletRow) :
    List (SowScore × ℕ × Option ℕ) :=
  assignRanks (fun s => decide (s.individual_id ∈ active))
    (fun s => s.total_score) (sowScoresList sqrtQ fr pig)

/-! ## Persistence skeleton of `run_scoring`

`run_scoring` works on a sqlite connection: `execute` changes only the
staged (uncommitted) state, `commit` publishes it.  The function deletes
both score tables and immediately commits, then recomputes and inserts,
and commits again at the very end.  A raised exception propagates,
leaving whatever was committed so far. -/

/-- The two persisted score tables. -/
structure ScoreDb where
  parity_scores : List (PRes × ℕ × Option ℕ)
  sow_scores : List (SowScore × ℕ × Option ℕ)
deriving DecidableEq

/-- A sqlite connection: committed state plus staged (uncommitted) state. -/
structure Conn where
  committed : ScoreDb
  staged : ScoreDb
deriving DecidableEq

/-- Model of `DELETE FROM parity_scores; DELETE FROM sow_scores` (staged only). -/
def execDeleteScores (c : Conn) : Conn :=
  { c with staged := { parity_scores := [], sow_scores := [] } }

/-- Model of `conn.commit()`. -/
def commitConn (c : Conn) : Conn := { c with committed := c.staged }

/-- Model of `run_scoring` as a state machine over the connection.  The three DB
reads are modelled as `Except` values so that a raising read can be
injected; an exception is returned together with the connection state at
the moment it was raised.  Inserted rows are the ranked parity rows
(cohort by cohort) and the ranked sow rows. -/
def runScoringPersist (sqrtQ : ℚ → ℚ) (conn : Conn)
    (loadFarrow : Except String (List FarrowRow))
    (loadActive : Except String (List String))
    (loadPiglets : Except String (List PigletRow)) :
    Except (String × Conn) Conn :=
  let c1 := commitConn (execDeleteScores conn)
  match loadFarrow with
  | .error e => .error (e, c1)
  | .ok fr =>
    match loadActive with
    | .error e => .error (e, c1)
    | .ok active =>
      match loadPiglets with
      | .error e => .error (e, c1)
      | .ok pig =>
        let pd := fr.map computeOwn
        let pRows := (parityKeys pd).flatMap (rankedParityCohort sqrtQ fr active)
        let sRows := rankedSowScores sqrtQ fr active pig
        .ok (commitConn { c1 with
          staged := { parity_scores := pRows, sow_scores := sRows } })

/-! ## `ml_features.py`: the feature/label pipeline

Frames model pandas DataFrames: an explicit column-name list (for the
`df[FEATURE_COLS]` selection semantics, which raises a `KeyError` when a
column is absent) together with typed rows (`Option ℚ` models NaN/NULL;
the SQL joins feeding Tier 3 are modelled as input relations). -/

/-- One row of `farrowing_records` as selected by `_load_farrowing`
(12 columns, `ORDER BY individual_id, parity`). -/
structure MLFarrowRow where
  individual_id : String
  parity : ℕ
  total_born : Option ℚ
  born_alive : Option ℚ
  stillborn : Option ℚ
  mummified : Option ℚ
  foster : Option ℚ
  weaned : Option ℚ
  deaths : Option ℚ
  mortality_rate : Option ℚ
  nursing_days : Option ℚ
  farrowing_interval : Option ℚ
deriving DecidableEq

/-- One row of the feature matrix (all tiers plus the label). -/
structure FeatureRow where
  individual_id : String
  parity : ℕ
  total_born : Option ℚ := none
  born_alive : Option ℚ := none
  stillborn : Option ℚ := none
  mummified : Option ℚ := none
  foster : Option ℚ := none
  weaned : Option ℚ := none
  deaths : Option ℚ := none
  mortality_rate : Option ℚ := none
  nursing_days : Option ℚ := none
  farrowing_interval : Option ℚ := none
  avg_born_alive_prev : Option ℚ := none
  avg_weaned_prev : Option ℚ := none
  avg_stillborn_prev : Option ℚ := none
  max_born_alive_prev : Option ℚ := none
  trend_born_alive : Option ℚ := none
  prev_parity_count : ℕ := 0
  a_rank_shipped_count : Option ℚ := none
  a_rank_shipped_ratio : Option ℚ := none
  avg_teat_score_a : Option ℚ := none
  w_promoted_count : Option ℚ := none
  w_promotion_rate : Option ℚ := none
  defect_piglet_count : Option ℚ := none
  defect_piglet_ratio : Option ℚ := none
  dam_total_score : Option ℚ := none
  dam_peak : Option ℚ := none
  dam_avg_born_alive : Option ℚ := none
  dam_w_promotion_rate : Option ℚ := none
  is_excellent : ℕ := 0
deriving DecidableEq

/-- A pandas DataFrame: its column names plus its typed rows. -/
structure Frame where
  cols : List String
  rows : List FeatureRow
deriving DecidableEq

/-- The 12 columns produced by `_load_farrowing`. -/
def LOAD_COLS : List String :=
  ["individual_id", "parity", "total_born", "born_alive", "stillborn",
   "mummified", "foster", "weaned", "deaths", "mortality_rate",
   "nursing_days", "farrowing_interval"]

/-- Model of `FEATURE_COLS` from `ml_features.py` (order matters for SHAP). -/
def FEATURE_COLS : List String :=
  ["parity", "total_born", "born_alive", "stillborn", "mummified",
   "foster", "weaned", "deaths", "mortality_rate", "nursing_days",
   "farrowing_interval",
   "avg_born_alive_prev", "avg_weaned_prev", "avg_stillborn_prev",
   "max_born_alive_prev", "trend_born_alive", "prev_parity_count",
   "a_rank_shipped_count", "a_rank_shipped_ratio", "avg_teat_score_a",
   "w_promoted_count", "w_promotion_rate",
   "defect_piglet_count", "defect_piglet_ratio",
   "dam_total_score", "dam_peak", "dam_avg_born_alive",
   "dam_w_promotion_rate"]

/-- A loaded farrowing row as a feature row (tier fields still NaN). -/
def loadRow (r : MLFarrowRow) : FeatureRow :=
  { individual_id := r.individual_id, parity := r.parity,
    total_born := r.total_born, born_alive := r.born_alive,
    stillborn := r.stillborn, mummified := r.mummified,
    foster := r.foster, weaned := r.weaned, deaths := r.deaths,
    mortality_rate := r.mortality_rate, nursing_days := r.nursing_days,
    farrowing_interval := r.farrowing_interval }

/-! ### Tier 2: expanding statistics over prior parities -/

/-- Model of `expanding().mean()` of an initial segment: mean of the non-NaN
values, NaN when there are none. -/
def prefixMeanOpt (l : List (Option ℚ)) : Option ℚ :=
  let v := l.filterMap id
  if v.isEmpty then none else some (v.sum / v.length)

/-- Model of `expanding().max()` of an initial segment. -/
def prefixMaxOpt (l : List (Option ℚ)) : Option ℚ := (l.filterMap id).max?

/-- The full expanding-mean series (`s.expanding().mean()`). -/
def expandingMean (s : List (Option ℚ)) : List (Option ℚ) :=
  (List.range s.length).map (fun j => prefixMeanOpt (s.take (j + 1)))

/-- The full expanding-max series (`s.expanding().max()`). -/
def expandingMax (s : List (Option ℚ)) : List (Option ℚ) :=
  (List.range s.length).map (fun j => prefixMaxOpt (s.take (j + 1)))

/-- Model of pandas `.shift(1)`: drop the last element and prepend NaN. -/
def shift1 (l : List (Option ℚ)) : List (Option ℚ) :=
  match l with
  | [] => []
  | _ :: _ => none :: l.dropLast

/-- Model of `s.expanding().mean().shift(1)`. -/
def avgPrevSeries (s : List (Option ℚ)) : List (Option ℚ) :=
  shift1 (expandingMean s)

/-- Model of `s.expanding().max().shift(1)`. -/
def maxPrevSeries (s : List (Option ℚ)) : List (Option ℚ) :=
  shift1 (expandingMax s)

/-- Least-squares slope of `np.polyfit(x, y, 1)` in closed form. -/
def polyfitSlope (pts : List (ℚ × ℚ)) : ℚ :=
  let n : ℚ := pts.length
  let sx := (pts.map Prod.fst).sum
  let sy := (pts.map Prod.snd).sum
  let sxy := (pts.map (fun p => p.1 * p.2)).sum
  let sxx := (pts.map (fun p => p.1 * p.1)).sum
  (n * sxy - sx * sy) / (n * sxx - sx * sx)

/-- Model of `_trend` at row `i`: NaN for `i < 2`; otherwise regress the non-NaN
values among the `i` strictly prior rows on their positional index, NaN
when fewer than 2 such points exist. -/
def trendAt (s : List (Option ℚ)) (i : ℕ) : Option ℚ :=
  if i < 2 then none
  else
    let y := s.take i
    let pts := y.enum.filterMap (fun p => p.2.map (fun q => ((p.1 : ℚ), q)))
    if pts.length < 2 then none else some (polyfitSlope pts)

/-- The full trend series (`grp["born_alive"].transform(_trend)`). -/
def trendSeries (s : List (Option ℚ)) : List (Option ℚ) :=
  (List.range s.length).map (trendAt s)

/-- Tier-2 features for one sow's group of rows (already in
parity-ascending order): positional application of the shifted expanding
series, `cumcount` and the trend series. -/
def tier2Group (g : List FeatureRow) : List FeatureRow :=
  let ba := g.map (fun r => r.born_alive)
  let wn := g.map (fun r => r.weaned)
  let sb := g.map (fun r => r.stillborn)
  g.enum.map (fun p =>
    { p.2 with
      avg_born_alive_prev := (avgPrevSeries ba).getD p.1 none,
      avg_weaned_prev := (avgPrevSeries wn).getD p.1 none,
      avg_stillborn_prev := (avgPrevSeries sb).getD p.1 none,
      max_born_alive_prev := (maxPrevSeries ba).getD p.1 none,
      prev_parity_count := p.1,
      trend_born_alive := (trendSeries ba).getD p.1 none })

/-- Model of `df.sort_values(["individual_id", "parity"])`: rows are unique per
`(individual_id, parity)`, so any sort gives this stable order. -/
def sortByIdParity (rows : List FeatureRow) : List FeatureRow :=
  sortB (fun a b => decide (b.individual_id < a.individual_id ∨
    (b.individual_id = a.individual_id ∧ b.parity < a.parity))) rows

/-- Model of `df.groupby("individual_id")` on the sorted frame: one group per
sow in ascending-id order, each group in sorted row order. -/
def sowGroups (rows : List FeatureRow) : List (List FeatureRow) :=
  let s := sortByIdParity rows
  (firstOccs (fun r => r.individual_id) s).map
    (fun sid => s.filter (fun r => decide (r.individual_id = sid)))

/-- Model of `_build_tier2_rolling`: sort, group by sow, apply the expanding
series per group, reassemble positionally. -/
def build_tier2_rolling (f : Frame) : Frame :=
  { cols := f.cols ++
      ["avg_born_alive_prev", "avg_weaned_prev", "avg_stillborn_prev",
       "max_born_alive_prev", "prev_parity_count", "trend_born_alive"],
    rows := (sowGroups f.rows).flatMap tier2Group }

/-! ### Tier 3: piglet quality -/

/-- One row of the piglet/farrowing join feeding Tier 3 (the SQL join on
`dam_id` and `birth_date = farrowing_date` is modelled as an input
relation; `WHERE dam_id IS NOT NULL` already applied). -/
structure PigJoinRow where
  individual_id : String
  parity : ℕ
  rank : Option String
  teat_score : Option ℚ
  ps_shipment : Option String
  remarks : Option String
deriving DecidableEq

/-- Substring containment, via `splitOn` (`str.contains` on the two
defect markers). -/
def containsSub (s pat : String) : Bool := 2 ≤ (s.splitOn pat).length

/-- Model of `remarks.fillna("").str.contains("陰部小|後足爪")`. -/
def isDefectRemarks (r : Option String) : Bool :=
  containsSub (r.getD "") "陰部小" || containsSub (r.getD "") "後足爪"

/-- A/B/C rank test (`is_a_rank`). -/
def isABC (p : PigJoinRow) : Bool :=
  decide (p.rank = some "A" ∨ p.rank = some "B" ∨ p.rank = some "C")

/-- The piglets joined to one `(sow, parity)` litter. -/
def pigsOf (pig : List PigJoinRow) (sid : String) (k : ℕ) : List PigJoinRow :=
  pig.filter (fun p => decide (p.individual_id = sid ∧ p.parity = k))

/-- Model of `_build_tier3_piglet_quality`: per-litter aggregates, left-merged
onto the frame; with no piglet rows at all, the seven columns are added
as all-NaN; a litter with no matching piglets keeps NaN in all seven. -/
def build_tier3 (pig : List PigJoinRow) (f : Frame) : Frame :=
  let t3cols := ["a_rank_shipped_count", "a_rank_shipped_ratio",
    "avg_teat_score_a", "w_promoted_count", "w_promotion_rate",
    "defect_piglet_count", "defect_piglet_ratio"]
  if pig.isEmpty then { cols := f.cols ++ t3cols, rows := f.rows }
  else
    { cols := f.cols ++ t3cols,
      rows := f.rows.map (fun r =>
        let ps := pigsOf pig r.individual_id r.parity
        if ps.isEmpty then r
        else
          let aTotal := (ps.filter isABC).length
          let aShipped := (ps.filter (fun p =>
            isABC p && decide (p.ps_shipment = some "○"))).length
          let teatA := (ps.filter isABC).filterMap (fun p => p.teat_score)
          let wTotal := (ps.filter (fun p => decide (p.rank = some "W"))).length
          let wPromoted := (ps.filter (fun p =>
            decide (p.rank = some "W" ∧ p.ps_shipment = some "W"))).length
          let defects := (ps.filter (fun p => isDefectRemarks p.remarks)).length
          { r with
            a_rank_shipped_count := some (aShipped : ℚ),
            a_rank_shipped_ratio :=
              if 0 < aTotal then some ((aShipped : ℚ) / (aTotal : ℚ)) else none,
            avg_teat_score_a :=
              if teatA.isEmpty then none else some (listMean teatA),
            w_promoted_count := some (wPromoted : ℚ),
            w_promotion_rate :=
              if 0 < wTotal then some ((wPromoted : ℚ) / (wTotal : ℚ)) else none,
            defect_piglet_count := some (defects : ℚ),
            defect_piglet_ratio :=
              if 0 < ps.length then some ((defects : ℚ) / (ps.length : ℚ)) else none }) }

/-! ### Tier 4: dam lineage -/

/-- A `sows` master row (only the fields Tier 4 reads). -/
structure SowMaster where
  individual_id : String
  dam_id : Option String
deriving DecidableEq

/-- The dam of a sow per the `sows` master (`individual_id` is the
relational key, so `find?` models the join). -/
def damOf (sows : List SowMaster) (child : String) : Option String :=
  match sows.find? (fun s => decide (s.individual_id = child)) with
  | some s => s.dam_id
  | none => none

/-- Model of `_build_tier4_dam_genetics` for one row: the dam's `sow_scores` row,
her lifetime `AVG(born_alive)` (SQL `AVG` ignores NULLs and is NULL when
all inputs are NULL), and her lifetime W-promotion rate over all her
piglets (`NULLIF` denominator). -/
def tier4For (sows : List SowMaster) (sscores : List SowScore)
    (farrow : List MLFarrowRow) (pigAll : List PigletRow)
    (r : FeatureRow) : FeatureRow :=
  match damOf sows r.individual_id with
  | none => r
  | some d =>
    let dscore := sscores.find? (fun t => decide (t.individual_id = d))
    let dfr := farrow.filter (fun x => decide (x.individual_id = d))
    let dvals := dfr.filterMap (fun x => x.born_alive)
    let dpig := pigAll.filter (fun p => decide (p.dam_id = d))
    let wp := (dpig.filter (fun p => decide (p.ps_shipment = some "W"))).length
    let wt := (dpig.filter (fun p => decide (p.rank = some "W"))).length
    { r with
      dam_total_score := dscore.map (fun t => t.total_score),
      dam_peak := dscore.map (fun t => t.peak),
      dam_avg_born_alive :=
        if dfr.isEmpty then none
        else if dvals.isEmpty then none else some (listMean dvals),
      dam_w_promotion_rate :=
        if dpig.isEmpty then none
        else if wt = 0 then none else some ((wp : ℚ) / (wt : ℚ)) }

/-- Model of `_build_tier4_dam_genetics` over the frame (plus the trailing
"ensure columns exist" effect on the column list). -/
def build_tier4 (sows : List SowMaster) (sscores : List SowScore)
    (farrow : List MLFarrowRow) (pigAll : List PigletRow) (f : Frame) : Frame :=
  { cols := f.cols ++ ["dam_total_score", "dam_peak",
      "dam_avg_born_alive", "dam_w_promotion_rate"],
    rows := f.rows.map (tier4For sows sscores farrow pigAll) }

/-! ### Label generation -/

/-- Model of `Series.quantile(q)` with pandas' default linear interpolation over
the non-NaN values (already filtered by the caller): position
`q*(n-1)` between the order statistics; `None` for an empty series. -/
def quantileQ (q : ℚ) (xs : List ℚ) : Option ℚ :=
  let s := sortB (fun a b => decide (b < a)) xs
  let n := s.length
  if n = 0 then none
  else
    let pos := q * ((n : ℚ) - 1)
    let i := (Int.floor pos).toNat
    let frac := pos - (i : ℚ)
    if i + 1 < n then some (s.getD i 0 + frac * (s.getD (i + 1) 0 - s.getD i 0))
    else some (s.getD i 0)

/-- The higher-is-better criterion: `v ≥ p70`; a missing value or a
missing percentile fails. -/
def critGE (v p : Option ℚ) : ℕ :=
  match v, p with
  | some v, some p => if p ≤ v then 1 else 0
  | _, _ => 0

/-- The lower-is-better criterion: `v ≤ p30`. -/
def critLE (v p : Option ℚ) : ℕ :=
  match v, p with
  | some v, some p => if v ≤ p then 1 else 0
  | _, _ => 0

/-- The sum of the seven `_crit_*` indicators of `_build_label` for one
row: three ≥-70th-percentile criteria, two ≤-30th-percentile criteria,
and the two ratio criteria guarded by column presence; percentiles are
taken within the row's same-parity group ignoring missing values. -/
def critSum (cols : List String) (rows : List FeatureRow) (r : FeatureRow) : ℕ :=
  let grp := rows.filter (fun x => decide (x.parity = r.parity))
  let q70 := fun (sel : FeatureRow → Option ℚ) =>
    quantileQ (7/10) (grp.filterMap sel)
  let q30 := fun (sel : FeatureRow → Option ℚ) =>
    quantileQ (3/10) (grp.filterMap sel)
  critGE r.total_born (q70 (fun x => x.total_born))
  + critGE r.born_alive (q70 (fun x => x.born_alive))
  + critGE r.weaned (q70 (fun x => x.weaned))
  + critLE r.stillborn (q30 (fun x => x.stillborn))
  + critLE r.mummified (q30 (fun x => x.mummified))
  + (if "a_rank_shipped_ratio" ∈ cols then
      critGE r.a_rank_shipped_ratio (q70 (fun x => x.a_rank_shipped_ratio))
    else 0)
  + (if "w_promotion_rate" ∈ cols then
      critGE r.w_promotion_rate (q70 (fun x => x.w_promotion_rate))
    else 0)

/-- Model of `_build_label`: `is_excellent = 1` iff at least 4 of the 7 criteria
hold (temporary criterion columns dropped again). -/
def build_label (f : Frame) : Frame :=
  { cols := f.cols ++ ["is_excellent"],
    rows := f.rows.map (fun r =>
      { r with is_excellent := if 4 ≤ critSum f.cols f.rows r then 1 else 0 }) }

/-- Model of `if col not in df.columns: df[col] = np.nan` over `FEATURE_COLS`. -/
def ensureFeatureCols (f : Frame) : Frame :=
  { cols := f.cols ++ FEATURE_COLS.filter (fun c => decide (c ∉ f.cols)),
    rows := f.rows }

/-- Model of `build_feature_matrix`: load; return the bare 12-column frame when it
is empty (skipping every later stage, including the column-ensuring
loop); otherwise run Tiers 2-4, the label, and ensure `FEATURE_COLS`. -/
def build_feature_matrix (farrow : List MLFarrowRow) (pigJoin : List PigJoinRow)
    (sows : List SowMaster) (sscores : List SowScore)
    (pigAll : List PigletRow) : Frame :=
  let df : Frame := { cols := LOAD_COLS, rows := farrow.map loadRow }
  if farrow.isEmpty then df
  else
    ensureFeatureCols (build_label
      (build_tier4 sows sscores farrow pigAll
        (build_tier3 pigJoin (build_tier2_rolling df))))

/-! ## `ml_engine.py`: the classifier wrapper

The trained LightGBM model and its SHAP explainer are opaque artifacts；
they are modelled as abstract functions from feature rows to
probabilities and attribution vectors.  `MLEngine.model is None` is the
`Option.none` case. -/

/-- An opaque trained classifier plus its SHAP explainer. -/
structure Model where
  predictProba : List FeatureRow → List ℚ
  shapRow : List FeatureRow → List (List ℚ)

/-- One row of `ml_predictions`. -/
structure PredRow where
  individual_id : String
  parity : ℕ
  prob : ℚ
  shap_json : List (String × ℚ)
  model_version : String
  predicted_at : String
deriving DecidableEq

/-- Model of `MLEngine.predict_all`.  Raising is modelled by `.error` carrying the
message and the `ml_predictions` table as it stands at the raise; the
not-trained check comes first, then the feature matrix (cached or
rebuilt), then the `df[FEATURE_COLS]` selection (a `KeyError` when a
column is missing), and only then the delete-and-reinsert of the table. -/
def predictAll (model : Option Model) (featCache : Option Frame)
    (farrow : List MLFarrowRow) (pigJoin : List PigJoinRow)
    (sows : List SowMaster) (sscores : List SowScore)
    (pigAll : List PigletRow) (mlPred : List PredRow)
    (version now : String) :
    Except (String × List PredRow) (List PredRow × List (String × ℕ × ℚ)) :=
  match model with
  | none => .error ("モデルが未学習です。先にtrain()を実行してください。", mlPred)
  | some m =>
    let df := match featCache with
      | some f => f
      | none => build_feature_matrix farrow pigJoin sows sscores pigAll
    if FEATURE_COLS.all (fun c => decide (c ∈ df.cols)) then
      let probs := m.predictProba df.rows
      let shap := m.shapRow df.rows
      let newRows := df.rows.enum.map (fun p =>
        { individual_id := p.2.individual_id, parity := p.2.parity,
          prob := probs.getD p.1 0,
          shap_json := FEATURE_COLS.enum.map
            (fun cj => (cj.2, (shap.getD p.1 []).getD cj.1 0)),
          model_version := version, predicted_at := now })
      .ok (newRows, df.rows.enum.map (fun p =>
        (p.2.individual_id, p.2.parity, probs.getD p.1 0)))
    else .error ("KeyError: columns not in index", mlPred)

/-- Model of `MLEngine.get_global_shap`: mean absolute SHAP value per feature. -/
def getGlobalShap (model : Option Model) (featCache : Option Frame)
    (farrow : List MLFarrowRow) (pigJoin : List PigJoinRow)
    (sows : List SowMaster) (sscores : List SowScore)
    (pigAll : List PigletRow) :
    Except String (List String × List ℚ) :=
  match model with
  | none => .error "モデルが未学習です。"
  | some m =>
    let df := match featCache with
      | some f => f
      | none => build_feature_matrix farrow pigJoin sows sscores pigAll
    if FEATURE_COLS.all (fun c => decide (c ∈ df.cols)) then
      let shap := m.shapRow df.rows
      .ok (FEATURE_COLS, (List.range FEATURE_COLS.length).map
        (fun j => listMean (shap.map (fun row => |row.getD j 0|))))
    else .error "KeyError: columns not in index"

/-- Model of `MLEngine.get_individual_shap`: not-trained check, then filter by sow
(and optionally parity); an empty subset yields `none`, not an error. -/
def getIndividualShap (model : Option Model) (featCache : Option Frame)
    (farrow : List MLFarrowRow) (pigJoin : List PigJoinRow)
    (sows : List SowMaster) (sscores : List SowScore)
    (pigAll : List PigletRow) (sid : String) (par : Option ℕ) :
    Except String (Option (List (List ℚ))) :=
  match model with
  | none => .error "モデルが未学習です。"
  | some m =>
    let df := match featCache with
      | some f => f
      | none => build_feature_matrix farrow pigJoin sows sscores pigAll
    let subset := df.rows.filter (fun r =>
      decide (r.individual_id = sid) &&
        (match par with
         | none => true
         | some k => decide (r.parity = k)))
    if subset.isEmpty then .ok none
    else if FEATURE_COLS.all (fun c => decide (c ∈ df.cols)) then
      .ok (some (m.shapRow subset))
    else .error "KeyError: columns not in index"

/-! ## GroupKFold

Modelled from the spec: `sklearn.model_selection.GroupKFold` is an
external library component ("split rows into 5 folds via group-aware
cross-validation keyed by sow identity; all of one sow's parities land
in the same fold").  The model follows sklearn's documented algorithm:
sort the distinct groups by sample count (largest first) and greedily
assign each whole group to the currently lightest of the 5 folds; the
validation indices of a fold are the rows whose group was assigned to
it.  Generic in the (linearly ordered) group-label type, instantiated
with `individual_id` strings by `train`. -/

/-- Model of `np.argmin` helper: index of the first minimum. -/
def argminGo : List ℕ → ℕ → ℕ → ℕ → ℕ
  | [], _, bi, _ => bi
  | v :: rest, i, bi, bv =>
    if v < bv then argminGo rest (i + 1) i v else argminGo rest (i + 1) bi bv

/-- Model of `np.argmin`: first index attaining the minimum (0 on the empty list). -/
def argminIdx : List ℕ → ℕ
  | [] => 0
  | v :: rest => argminGo rest 1 0 v

/-- Model of `np.unique`: distinct group labels in ascending order. -/
def uniqueGroupsSorted {α : Type} [LinearOrder α] (groups : List α) : List α :=
  sortB (fun a b => decide (b < a)) (firstOccs (fun x => x) groups)

/-- Sample count per distinct group. -/
def nSamplesPerGroup {α : Type} [LinearOrder α] (groups : List α) :
    List (α × ℕ) :=
  (uniqueGroupsSorted groups).map
    (fun g => (g, groups.countP (fun x => decide (x = g))))

/-- Groups ordered by decreasing sample count (argsort then reverse). -/
def groupsBySizeDesc {α : Type} [LinearOrder α] (groups : List α) :
    List (α × ℕ) :=
  (sortB (fun a b => decide (b.2 < a.2)) (nSamplesPerGroup groups)).reverse

/-- Greedy assignment of whole groups to the lightest fold. -/
def gkfAssignGo {α : Type} : List (α × ℕ) → List ℕ → List (α × ℕ)
  | [], _ => []
  | gw :: rest, loads =>
    let f := argminIdx loads
    (gw.1, f) :: gkfAssignGo rest (loads.set f (loads.getD f 0 + gw.2))

/-- The group-to-fold assignment for 5 folds. -/
def gkfAssign {α : Type} [LinearOrder α] (groups : List α) : List (α × ℕ) :=
  gkfAssignGo (groupsBySizeDesc groups) (List.replicate 5 0)

/-- The fold of one group label. -/
def foldOfGroup {α : Type} [LinearOrder α] (groups : List α) (g : α) : ℕ :=
  (((gkfAssign groups).find? (fun p => decide (p.1 = g))).map Prod.snd).getD 0

/-- The validation indices of fold `f`: all row positions whose group
label is assigned to `f`. -/
def gkfValIdx {α : Type} [LinearOrder α] (groups : List α) (f : ℕ) : List ℕ :=
  (List.range groups.length).filter (fun i =>
    match groups[i]? with
    | some g => decide (foldOfGroup groups g = f)
    | none => false)

/-- Model of `GroupKFold(n_splits=5).split`: a `ValueError` when there are fewer
than 5 distinct groups, otherwise the 5 validation index lists. -/
def gkfSplit {α : Type} [LinearOrder α] (groups : List α) :
    Except String (List (List ℕ)) :=
  if (firstOccs (fun x => x) groups).length < 5 then
    .error "Cannot have number of splits greater than the number of groups"
  else .ok ((List.range 5).map (gkfValIdx groups))

/-! ## Concrete sample data used by witnesses and counterexamples -/

/-- A farrowing row with all five quantities present (single-sow cohort). -/
def w7row : FarrowRow :=
  { individual_id := "s", parity := 2, weaned := some 8, foster := some 1,
    born_alive := some 10, total_born := some 12, stillborn := some 1 }

/-- A farrowing row with only `born_alive` present. -/
def w6row : FarrowRow :=
  { individual_id := "s", parity := 1, weaned := none, foster := none,
    born_alive := some 10, total_born := none, stillborn := none }

/-- A farrowing row of sow `sid` at parity `k` with every quantity NULL. -/
def nullRow (sid : String) (k : ℕ) : FarrowRow :=
  { individual_id := sid, parity := k, weaned := none, foster := none,
    born_alive := none, total_born := none, stillborn := none }

/-- Load-ordered input for the sow-level tie-break counterexample: sows
`A < B < X` by identifier, with parities 2, 3 and 2 respectively, and all
quantities NULL, so that every score is exactly `0`. -/
def cexFarrow : List FarrowRow := [nullRow "A" 2, nullRow "B" 3, nullRow "X" 2]

/-- A sample persisted parity-score row. -/
def samplePRes : PRes :=
  { individual_id := "s1", parity := 1, own_weaned := some 9,
    own_rate := some (9/10), z_own_weaned := 0, z_live_born := 0,
    z_total_born := 0, z_stillborn := 0, z_own_rate := 0, parity_score := 1/2 }

/-- A sample persisted sow-score row. -/
def sampleSow : SowScore :=
  { individual_id := "s1", peak := 1/2, stability := 0, sustain := 0,
    offspring_quality := 0, total_score := 7/20 }

/-- A database state in which both score tables are nonempty. -/
def sampleDb : ScoreDb :=
  { parity_scores := [(samplePRes, 1, some 1)],
    sow_scores := [(sampleSow, 1, some 1)] }

/-- A connection at rest on `sampleDb` (staged state equals committed). -/
def sampleConn : Conn := { committed := sampleDb, staged := sampleDb }

/-- A trivial trained-model stand-in (constant probability, zero SHAP). -/
def dummyModel : Model :=
  { predictProba := fun rows => rows.map (fun _ => 1/2),
    shapRow := fun rows => rows.map (fun _ => FEATURE_COLS.map (fun _ => 0)) }

/-- A pre-existing `ml_predictions` row. -/
def samplePred : PredRow :=
  { individual_id := "s1", parity := 1, prob := 1/2, shap_json := [],
    model_version := "v0", predicted_at := "t0" }

/-- A nonempty `ml_predictions` table. -/
def sampleMLPred : List PredRow := [samplePred]

/-- A feature row for the label-generator witness. -/
def w8row : FeatureRow :=
  { individual_id := "s", parity := 1, total_born := some 10,
    born_alive := some 8, weaned := some 7, stillborn := some 1,
    mummified := some 0, a_rank_shipped_ratio := some (1/2),
    w_promotion_rate := none }

/-- A one-row frame carrying the two ratio columns. -/
def w8frame : Frame :=
  { cols := LOAD_COLS ++ ["a_rank_shipped_ratio", "w_promotion_rate"],
    rows := [w8row] }

/-- Witness series for Tier-2 prefix dependence. -/
def w1s : List (Option ℚ) := [some 1, some 2, some 5]

/-- A series agreeing with `w1s` on the first two entries only. -/
def w1t : List (Option ℚ) := [some 1, some 2, none]

/-- A three-row sow group for the Tier-2 witness. -/
def w1g : List FeatureRow :=
  [{ individual_id := "s", parity := 1, born_alive := some 1 },
   { individual_id := "s", parity := 2, born_alive := some 2 },
   { individual_id := "s", parity := 3, born_alive := some 5 }]

/-- Same group with a different third (current) row. -/
def w1g2 : List FeatureRow :=
  [{ individual_id := "s", parity := 1, born_alive := some 1 },
   { individual_id := "s", parity := 2, born_alive := some 2 },
   { individual_id := "s", parity := 3, born_alive := none }]

/-! ## Helper lemmas on sorting and rank assignment -/

theorem insB_filter_key {α : Type} (key : α → ℚ) (c : ℚ) (a : α) (s : List α) :
    (insB (fun x y => decide (key x < key y)) a s).filter
        (fun x => decide (key x = c)) =
      (a :: s).filter (fun x => decide (key x = c)) := by
  induction s with
  | nil => simp [insB]
  | cons b s' ih =>
    by_cases hab : key a < key b
    · have hstep : insB (fun x y => decide (key x < key y)) a (b :: s') =
          b :: insB (fun x y => decide (key x < key y)) a s' := by
        simp [insB, hab]
      rw [hstep]
      by_cases hbc : key b = c
      · have hac : ¬ key a = c := by
          intro hac
          exact absurd hab (by rw [hac, hbc]; exact lt_irrefl c)
        simp [List.filter_cons, hbc, hac, ih]
      · simp only [List.filter_cons, ih]
        by_cases hac : key a = c <;> simp [List.filter_cons, hac, hbc]
    · have hstep : insB (fun x y => decide (key x < key y)) a (b :: s') =
          a :: b :: s' := by
        simp [insB, hab]
      rw [hstep]

theorem sortB_cons {α : Type} (keep : α → α → Bool) (a : α) (l : List α) :
    sortB keep (a :: l) = insB keep a (sortB keep l) := rfl

theorem sortDesc_filter_key {α : Type} (key : α → ℚ) (c : ℚ) (l : List α) :
    (sortDesc key l).filter (fun x => decide (key x = c)) =
      l.filter (fun x => decide (key x = c)) := by
  induction l with
  | nil => rfl
  | cons a l ih =>
    show ((insB _ a (sortB _ l)).filter _) = _
    rw [insB_filter_key key c a (sortB (fun x y => decide (key x < key y)) l)]
    have hs : sortB (fun x y => decide (key x < key y)) l = sortDesc key l := rfl
    by_cases hac : key a = c <;>
      simp [List.filter_cons, hac, hs, ih]

theorem rankList_map_fst {α : Type} (act : α → Bool) (l : List α) (i c : ℕ) :
    (rankList act l i c).map Prod.fst = l := by
  induction l generalizing i c with
  | nil => rfl
  | cons a l ih =>
    by_cases h : act a = true <;> simp [rankList, h, ih]

theorem rankList_length {α : Type} (act : α → Bool) (l : List α) (i c : ℕ) :
    (rankList act l i c).length = l.length := by
  have := congrArg List.length (rankList_map_fst act l i c)
  simpa using this

theorem rankList_map_rank_all {α : Type} (act : α → Bool) (l : List α) (i c : ℕ) :
    (rankList act l i c).map (fun t => t.2.1) = List.range' (i + 1) l.length := by
  induction l generalizing i c with
  | nil => rfl
  | cons a l ih =>
    by_cases h : act a = true <;>
      simp [rankList, h, ih, List.range'_succ, List.length_cons]

theorem rankList_active_isSome {α : Type} (act : α → Bool) (l : List α) (i c : ℕ) :
    (rankList act l i c).all (fun t => (t.2.2).isSome == act t.1) = true := by
  induction l generalizing i c with
  | nil => rfl
  | cons a l ih =>
    by_cases h : act a = true <;> simp [rankList, h, ih]

theorem rankList_map_rank_active {α : Type} (act : α → Bool) (l : List α) (i c : ℕ) :
    ((rankList act l i c).filter (fun t => act t.1)).map (fun t => t.2.2) =
      (List.range' (c + 1) (l.countP act)).map some := by
  induction l generalizing i c with
  | nil => rfl
  | cons a l ih =>
    by_cases h : act a = true
    · simp [rankList, h, List.filter_cons, ih, List.countP_cons, List.range'_succ]
    · simp [rankList, h, List.filter_cons, ih, List.countP_cons]

theorem rankList_countP_fst {α : Type} (act : α → Bool) (l : List α) (i c : ℕ) :
    (rankList act l i c).countP (fun t => act t.1) = l.countP act := by
  have h := List.countP_map act (Prod.fst (α := α) (β := ℕ × Option ℕ))
    (rankList act l i c)
  rw [rankList_map_fst] at h
  exact h.symm

theorem assignRanks_props {α : Type} (act : α → Bool) (key : α → ℚ) (g : List α) :
    ((assignRanks act key g).all (fun t => (t.2.2).isSome == act t.1) = true)
    ∧ (assignRanks act key g).map (fun t => t.2.1) =
        List.range' 1 (assignRanks act key g).length
    ∧ ((assignRanks act key g).filter (fun t => act t.1)).map (fun t => t.2.2) =
        (List.range' 1 ((assignRanks act key g).countP (fun t => act t.1))).map some := by
  refine ⟨rankList_active_isSome act _ 0 0, ?_, ?_⟩
  · rw [show assignRanks act key g = rankList act (sortDesc key g) 0 0 from rfl,
      rankList_map_rank_all, rankList_length]
  · rw [show assignRanks act key g = rankList act (sortDesc key g) 0 0 from rfl,
      rankList_map_rank_active, rankList_countP_fst]

/-- Second component of `statPair` is `0` whenever fewer than two values exist. -/
theorem statPair_sd_zero (sqrtQ : ℚ → ℚ) (vals : List ℚ) (h : vals.length < 2) :
    (statPair sqrtQ vals).2 = 0 := by
  match vals with
  | [] => simp [statPair]
  | [a] => simp [statPair, mean_sd]
  | a :: b :: l => simp at h; omega

/-- The `_zscore` value is `0` whenever the standard deviation is `0`. -/
theorem zscore_sd_zero (x : Option ℚ) (m : ℚ) (inv : Bool) : zscore x m 0 inv = 0 := by
  cases x <;> simp [zscore]

/-! ## Claim theorems for `engine.py` -/

/-- C7: `_mean_sd` on fewer than two values reports sd `0` and mean equal
to the single value (or `0` for the empty list); `_zscore` is exactly `0`
for a missing value or a zero sd and `(v-mean)/sd` otherwise; and in any
parity cohort of size `N < 2` every (shrinkage-scaled) z-score produced
by `run_scoring` is exactly `0` and every cohort sd is `0`. -/
theorem degenerate_cohort_zscores :
    (∀ (sqrtQ : ℚ → ℚ) (values : List ℚ), values.length < 2 →
      mean_sd sqrtQ values = (values.head?.getD 0, 0)
      ∧ statPair sqrtQ values = (values.head?.getD 0, 0))
    ∧ (∀ (m sd : ℚ) (inv : Bool), zscore none m sd inv = 0)
    ∧ (∀ (v m : ℚ) (inv : Bool), zscore (some v) m 0 inv = 0)
    ∧ (∀ (v m sd : ℚ), sd ≠ 0 → zscore (some v) m sd false = (v - m) / sd)
    ∧ (∀ (sqrtQ : ℚ → ℚ) (fr : List FarrowRow) (k : ℕ) (pr : PRow),
        (cohortOf (fr.map computeOwn) k).length < 2 →
        pr ∈ cohortOf (fr.map computeOwn) k →
        (cohortZStats sqrtQ (cohortOf (fr.map computeOwn) k)).s_ow = 0
        ∧ (cohortZStats sqrtQ (cohortOf (fr.map computeOwn) k)).s_lb = 0
        ∧ (cohortZStats sqrtQ (cohortOf (fr.map computeOwn) k)).s_tb = 0
        ∧ (cohortZStats sqrtQ (cohortOf (fr.map computeOwn) k)).s_sb = 0
        ∧ (cohortZStats sqrtQ (cohortOf (fr.map computeOwn) k)).s_or = 0
        ∧ (scoreRow (fr.map computeOwn)
            (cohortZStats sqrtQ (cohortOf (fr.map computeOwn) k)) pr).z_own_weaned = 0
        ∧ (scoreRow (fr.map computeOwn)
            (cohortZStats sqrtQ (cohortOf (fr.map computeOwn) k)) pr).z_live_born = 0
        ∧ (scoreRow (fr.map computeOwn)
            (cohortZStats sqrtQ (cohortOf (fr.map computeOwn) k)) pr).z_total_born = 0
        ∧ (scoreRow (fr.map computeOwn)
            (cohortZStats sqrtQ (cohortOf (fr.map computeOwn) k)) pr).z_stillborn = 0
        ∧ (scoreRow (fr.map computeOwn)
            (cohortZStats sqrtQ (cohortOf (fr.map computeOwn) k)) pr).z_own_rate = 0) := by
  refine ⟨?_, ?_, ?_, ?_, ?_⟩
  · intro sqrtQ values h
    refine ⟨by simp [mean_sd, h], ?_⟩
    match values, h with
    | [], _ => simp [statPair]
    | [a], _ => simp [statPair, mean_sd]
    | a :: b :: l, h => simp at h; omega
  · intro m sd inv; rfl
  · intro v m inv; simp [zscore]
  · intro v m sd h; simp [zscore, h]
  · intro sqrtQ fr k pr hlen _hm
    have hf : ∀ f : PRow → Option ℚ,
        ((cohortOf (fr.map computeOwn) k).filterMap f).length < 2 :=
      fun f => lt_of_le_of_lt (List.length_filterMap_le f _) hlen
    have hs : ∀ f : PRow → Option ℚ,
        (statPair sqrtQ ((cohortOf (fr.map computeOwn) k).filterMap f)).2 = 0 :=
      fun f => statPair_sd_zero sqrtQ _ (hf f)
    refine ⟨hs _, hs _, hs _, hs _, hs _, ?_, ?_, ?_, ?_, ?_⟩ <;>
      simp only [scoreRow, cohortZStats] <;>
      rw [hs] <;> rw [zscore_sd_zero] <;> ring

/-- C7 witness: concrete instances of the degenerate cases. -/
theorem degenerate_cohort_zscores_witness :
    mean_sd (fun _ => 0) [(5 : ℚ)] = (5, 0)
    ∧ zscore (some (3 : ℚ)) 1 2 false = 1
    ∧ (cohortOf ([w7row].map computeOwn) 2).length < 2
    ∧ (scoreRow ([w7row].map computeOwn)
        (cohortZStats (fun _ => 0) (cohortOf ([w7row].map computeOwn) 2))
        (computeOwn w7row)).z_live_born = 0 := by
  have h := degenerate_cohort_zscores
  have hco : cohortOf ([w7row].map computeOwn) 2 = [computeOwn w7row] := by
    simp [cohortOf, computeOwn, w7row]
  refine ⟨(h.1 (fun _ => 0) [(5 : ℚ)] (by norm_num)).1, ?_, by rw [hco]; norm_num, ?_⟩
  · rw [h.2.2.2.1 3 1 2 (by norm_num)]; norm_num
  · exact (h.2.2.2.2 (fun _ => 0) [w7row] 2 (computeOwn w7row)
      (by rw [hco]; norm_num) (by rw [hco]; exact List.mem_singleton.mpr rfl)).2.2.2.2.2.2.1

/-- C6: every z-score entering a parity row is multiplied by exactly the
shrinkage factor `n/(n+3)` where `n` is the sow's total number of parity
records across all cohorts; this factor is strictly increasing in `n`
and lies in `(0,1)` for every `n ≥ 1`. -/
theorem shrinkage_factor_total_count (sqrtQ : ℚ → ℚ) (fr : List FarrowRow)
    (k : ℕ) (pr : PRow) (hm : pr ∈ cohortOf (fr.map computeOwn) k) :
    ((scoreRow (fr.map computeOwn) (cohortZStats sqrtQ (cohortOf (fr.map computeOwn) k)) pr).z_own_weaned =
        zscore pr.own_w (cohortZStats sqrtQ (cohortOf (fr.map computeOwn) k)).m_ow
          (cohortZStats sqrtQ (cohortOf (fr.map computeOwn) k)).s_ow false *
          shrinkF (sowTotalCount (fr.map computeOwn) pr.individual_id)
      ∧ (scoreRow (fr.map computeOwn) (cohortZStats sqrtQ (cohortOf (fr.map computeOwn) k)) pr).z_live_born =
        zscore pr.born_alive (cohortZStats sqrtQ (cohortOf (fr.map computeOwn) k)).m_lb
          (cohortZStats sqrtQ (cohortOf (fr.map computeOwn) k)).s_lb false *
          shrinkF (sowTotalCount (fr.map computeOwn) pr.individual_id)
      ∧ (scoreRow (fr.map computeOwn) (cohortZStats sqrtQ (cohortOf (fr.map computeOwn) k)) pr).z_total_born =
        zscore pr.total_born (cohortZStats sqrtQ (cohortOf (fr.map computeOwn) k)).m_tb
          (cohortZStats sqrtQ (cohortOf (fr.map computeOwn) k)).s_tb false *
          shrinkF (sowTotalCount (fr.map computeOwn) pr.individual_id)
      ∧ (scoreRow (fr.map computeOwn) (cohortZStats sqrtQ (cohortOf (fr.map computeOwn) k)) pr).z_stillborn =
        zscore pr.stillborn (cohortZStats sqrtQ (cohortOf (fr.map computeOwn) k)).m_sb
          (cohortZStats sqrtQ (cohortOf (fr.map computeOwn) k)).s_sb true *
          shrinkF (sowTotalCount (fr.map computeOwn) pr.individual_id)
      ∧ (scoreRow (fr.map computeOwn) (cohortZStats sqrtQ (cohortOf (fr.map computeOwn) k)) pr).z_own_rate =
        zscore pr.own_rate (cohortZStats sqrtQ (cohortOf (fr.map computeOwn) k)).m_or
          (cohortZStats sqrtQ (cohortOf (fr.map computeOwn) k)).s_or false *
          shrinkF (sowTotalCount (fr.map computeOwn) pr.individual_id))
    ∧ (∀ a b : ℕ, a < b → shrinkF a < shrinkF b)
    ∧ (∀ m : ℕ, 1 ≤ m → 0 < shrinkF m ∧ shrinkF m < 1) := by
  have hpd : pr ∈ fr.map computeOwn := (List.mem_filter.mp hm).1
  have hmem : pr ∈ (fr.map computeOwn).filter
      (fun p => decide (p.individual_id = pr.individual_id)) :=
    List.mem_filter.mpr ⟨hpd, by simp⟩
  have hpos : 0 < sowTotalCount (fr.map computeOwn) pr.individual_id :=
    List.length_pos.mpr (List.ne_nil_of_mem hmem)
  have hc : sowTotalCount (fr.map computeOwn) pr.individual_id ≠ 0 :=
    Nat.pos_iff_ne_zero.mp hpos
  have hsn : sowN (fr.map computeOwn) pr.individual_id =
      sowTotalCount (fr.map computeOwn) pr.individual_id := by
    simp [sowN, hc]
  refine ⟨⟨?_, ?_, ?_, ?_, ?_⟩, ?_, ?_⟩
  · simp only [scoreRow, hsn]
  · simp only [scoreRow, hsn]
  · simp only [scoreRow, hsn]
  · simp only [scoreRow, hsn]
  · simp only [scoreRow, hsn]
  · intro a b hab
    have hA : ((ALPHA : ℕ) : ℚ) = 3 := by norm_num [ALPHA]
    unfold shrinkF
    rw [hA, div_lt_div_iff₀ (by positivity) (by positivity)]
    have : (a : ℚ) < b := by exact_mod_cast hab
    nlinarith [this]
  · intro m hm1
    have h0 : (0 : ℚ) < m := by exact_mod_cast hm1
    have hA : ((ALPHA : ℕ) : ℚ) = 3 := by norm_num [ALPHA]
    constructor
    · unfold shrinkF
      rw [hA]
      positivity
    · unfold shrinkF
      rw [hA, div_lt_one (by positivity)]
      norm_num

/-- C6 witness: a concrete row and concrete shrinkage-factor instances. -/
theorem shrinkage_factor_total_count_witness :
    (computeOwn w6row) ∈ cohortOf ([w6row].map computeOwn) 1
    ∧ shrinkF 1 < shrinkF 2 ∧ 0 < shrinkF 5 ∧ shrinkF 5 < 1 := by
  have hco : cohortOf ([w6row].map computeOwn) 1 = [computeOwn w6row] := by
    simp [cohortOf, computeOwn, w6row]
  have hmm : computeOwn w6row ∈ cohortOf ([w6row].map computeOwn) 1 := by
    rw [hco]; exact List.mem_singleton.mpr rfl
  have h := shrinkage_factor_total_count (fun _ => 0) [w6row] 1
    (computeOwn w6row) hmm
  exact ⟨hmm, h.2.1 1 2 (by norm_num), (h.2.2 5 (by norm_num)).1,
    (h.2.2 5 (by norm_num)).2⟩

/-- C9: in both the parity-level and the sow-level ranking, a row carries
a non-null `rank_active` exactly when its sow is active, `rank_all` runs
`1..N` along the ranked order, and `rank_active` runs `1..K` along the
active-restricted subsequence of that same order (never re-ordered). -/
theorem rank_active_subsequence_of_rank_all (sqrtQ : ℚ → ℚ)
    (fr : List FarrowRow) (active : List String) (pig : List PigletRow) (k : ℕ) :
    (((rankedParityCohort sqrtQ fr active k).all
        (fun t => (t.2.2).isSome == decide (t.1.individual_id ∈ active))) = true
      ∧ (rankedParityCohort sqrtQ fr active k).map (fun t => t.2.1) =
          List.range' 1 (rankedParityCohort sqrtQ fr active k).length
      ∧ ((rankedParityCohort sqrtQ fr active k).filter
            (fun t => decide (t.1.individual_id ∈ active))).map (fun t => t.2.2) =
          (List.range' 1 ((rankedParityCohort sqrtQ fr active k).countP
            (fun t => decide (t.1.individual_id ∈ active)))).map some)
    ∧ (((rankedSowScores sqrtQ fr active pig).all
        (fun t => (t.2.2).isSome == decide (t.1.individual_id ∈ active))) = true
      ∧ (rankedSowScores sqrtQ fr active pig).map (fun t => t.2.1) =
          List.range' 1 (rankedSowScores sqrtQ fr active pig).length
      ∧ ((rankedSowScores sqrtQ fr active pig).filter
            (fun t => decide (t.1.individual_id ∈ active))).map (fun t => t.2.2) =
          (List.range' 1 ((rankedSowScores sqrtQ fr active pig).countP
            (fun t => decide (t.1.individual_id ∈ active)))).map some) :=
  ⟨assignRanks_props _ _ _, assignRanks_props _ _ _⟩

/-- C10 (amended): both ranking sorts are stable, so rows with equal
scores keep their relative order: restricting the sorted cohort (resp.
the sorted sow list) to any fixed score value yields exactly the rows of
that score in their pre-sort order — the cohort sublist of
`parity_results` at the parity level, and the `sow_scores` construction
order (first appearance in the cohort-grouped `parity_results`, which
may differ from the load order) at the sow level. -/
theorem tie_break_stable_order (sqrtQ : ℚ → ℚ) (fr : List FarrowRow)
    (pig : List PigletRow) (k : ℕ) (c : ℚ) :
    (sortDesc (fun r : PRes => r.parity_score)
        ((parityResults sqrtQ fr).filter (fun r => decide (r.parity = k)))).filter
        (fun r => decide (r.parity_score = c))
      = ((parityResults sqrtQ fr).filter (fun r => decide (r.parity = k))).filter
        (fun r => decide (r.parity_score = c))
    ∧ (sortDesc (fun s : SowScore => s.total_score)
        (sowScoresList sqrtQ fr pig)).filter (fun s => decide (s.total_score = c))
      = (sowScoresList sqrtQ fr pig).filter (fun s => decide (s.total_score = c)) :=
  ⟨sortDesc_filter_key _ c _, sortDesc_filter_key _ c _⟩

/-- C10 counterexample: on `cexFarrow` all three sows have equal
`total_score = 0`; sow `B` appears before sow `X` in the load order, yet
the pipeline ranks `X` second and `B` third, because the `sow_scores`
list is built in first-appearance order within the cohort-grouped
`parity_results` (`A`, `X`, `B`), not in load order. -/
theorem sow_tie_break_counterexample :
    ((rankedSowScores (fun _ => 0) cexFarrow [] []).map
        (fun t => (t.1.individual_id, t.2.1)) = [("A", 1), ("X", 2), ("B", 3)])
    ∧ ((sowScoresList (fun _ => 0) cexFarrow []).map
        (fun s => s.total_score) = [0, 0, 0])
    ∧ (cexFarrow.map (fun r => r.individual_id)).findIdx (fun s => s == "B") <
      (cexFarrow.map (fun r => r.individual_id)).findIdx (fun s => s == "X") := by
  have h1 : sowScoresList (fun _ => 0) cexFarrow [] =
      [{ individual_id := "A", peak := 0, stability := 0, sustain := 0,
         offspring_quality := 0, total_score := 0 },
       { individual_id := "X", peak := 0, stability := 0, sustain := 0,
         offspring_quality := 0, total_score := 0 },
       { individual_id := "B", peak := 0, stability := 0, sustain := 0,
         offspring_quality := 0, total_score := 0 }] := by
    simp [sowScoresList, parityResults, cexFarrow, nullRow, computeOwn,
      parityKeys, firstOccs, cohortOf, cohortZStats, statPair, scoreRow,
      zscore, sowRecs, sortAscNat, sortB, insB, peakOf, stabilityOf,
      sustainOf, offspringQuality, wRate, psRate, damWTotal, damLTotal,
      wDams, lDams, listMean, shrinkF]
  refine ⟨?_, ?_, ?_⟩
  · rw [rankedSowScores, h1]
    simp [assignRanks, sortDesc, sortB, insB, rankList]
  · rw [h1]
    simp
  · simp [cexFarrow, nullRow, List.findIdx, List.findIdx.go]

/-- C5 (code bug): `run_scoring` commits the initial `DELETE` of both
score tables before recomputation (`conn.commit()` right after the two
deletes).  If a later step raises — here the farrowing-records read —
the failure leaves both tables committed empty, not as they were before
the run. -/
theorem run_scoring_commits_initial_delete :
    runScoringPersist (fun _ => 0) sampleConn (.error "write failed") (.ok []) (.ok [])
      = .error ("write failed", commitConn (execDeleteScores sampleConn))
    ∧ (commitConn (execDeleteScores sampleConn)).committed.parity_scores = []
    ∧ (commitConn (execDeleteScores sampleConn)).committed.sow_scores = []
    ∧ sampleConn.committed.parity_scores ≠ []
    ∧ sampleConn.committed.sow_scores ≠ [] := by
  refine ⟨rfl, rfl, rfl, ?_, ?_⟩ <;> simp [sampleConn, sampleDb]

/-! ## Helper lemmas for the Tier-2 series -/

theorem shift1_getD (l : List (Option ℚ)) (i : ℕ) (h : i < l.length) :
    (shift1 l).getD i none = if i = 0 then none else l.getD (i - 1) none := by
  match l, h with
  | a :: l', h =>
    show (none :: (a :: l').dropLast).getD i none = _
    cases i with
    | zero => rfl
    | succ j =>
      have hj : j < (a :: l').length - 1 := by
        simpa using Nat.lt_of_succ_lt_succ (by simpa using h)
      simp only [List.getD_cons_succ, Nat.succ_ne_zero, if_false,
        Nat.succ_sub_one]
      rw [List.getD_eq_getElem?_getD, List.getD_eq_getElem?_getD,
        List.getElem?_dropLast, if_pos hj]

theorem expandingMean_getD (s : List (Option ℚ)) (j : ℕ) (h : j < s.length) :
    (expandingMean s).getD j none = prefixMeanOpt (s.take (j + 1)) := by
  rw [expandingMean, List.getD_eq_getElem?_getD, List.getElem?_map,
    List.getElem?_range h]
  rfl

theorem expandingMax_getD (s : List (Option ℚ)) (j : ℕ) (h : j < s.length) :
    (expandingMax s).getD j none = prefixMaxOpt (s.take (j + 1)) := by
  rw [expandingMax, List.getD_eq_getElem?_getD, List.getElem?_map,
    List.getElem?_range h]
  rfl

theorem trendSeries_getD (s : List (Option ℚ)) (j : ℕ) (h : j < s.length) :
    (trendSeries s).getD j none = trendAt s j := by
  rw [trendSeries, List.getD_eq_getElem?_getD, List.getElem?_map,
    List.getElem?_range h]
  rfl

theorem expandingMean_length (s : List (Option ℚ)) :
    (expandingMean s).length = s.length := by simp [expandingMean]

theorem expandingMax_length (s : List (Option ℚ)) :
    (expandingMax s).length = s.length := by simp [expandingMax]

theorem avgPrev_getD (s : List (Option ℚ)) (i : ℕ) (h : i < s.length) :
    (avgPrevSeries s).getD i none =
      if i = 0 then none else prefixMeanOpt (s.take i) := by
  rw [avgPrevSeries, shift1_getD _ i (by rw [expandingMean_length]; exact h)]
  cases i with
  | zero => rfl
  | succ j =>
    simp only [Nat.succ_ne_zero, if_false, Nat.succ_sub_one]
    exact expandingMean_getD s j (Nat.lt_of_succ_lt h)

theorem maxPrev_getD (s : List (Option ℚ)) (i : ℕ) (h : i < s.length) :
    (maxPrevSeries s).getD i none =
      if i = 0 then none else prefixMaxOpt (s.take i) := by
  rw [maxPrevSeries, shift1_getD _ i (by rw [expandingMax_length]; exact h)]
  cases i with
  | zero => rfl
  | succ j =>
    simp only [Nat.succ_ne_zero, if_false, Nat.succ_sub_one]
    exact expandingMax_getD s j (Nat.lt_of_succ_lt h)

theorem enumFrom_filterMap_length (y : List (Option ℚ)) (n : ℕ) :
    ((List.enumFrom n y).filterMap
      (fun p => p.2.map (fun q => ((p.1 : ℚ), q)))).length =
    (y.filterMap id).length := by
  induction y generalizing n with
  | nil => rfl
  | cons a l ih =>
    cases a <;> simp [List.enumFrom, List.filterMap_cons, ih]

theorem trendAt_congr (s t : List (Option ℚ)) (i : ℕ)
    (h : s.take i = t.take i) : trendAt s i = trendAt t i := by
  unfold trendAt
  rw [h]

theorem tier2Group_getElem (g : List FeatureRow) (i : ℕ) (h : i < g.length) :
    (tier2Group g)[i]?.map (fun r =>
        (r.avg_born_alive_prev, r.avg_weaned_prev, r.avg_stillborn_prev,
         r.max_born_alive_prev, r.prev_parity_count, r.trend_born_alive))
      = some ((avgPrevSeries (g.map (fun r => r.born_alive))).getD i none,
          (avgPrevSeries (g.map (fun r => r.weaned))).getD i none,
          (avgPrevSeries (g.map (fun r => r.stillborn))).getD i none,
          (maxPrevSeries (g.map (fun r => r.born_alive))).getD i none,
          i,
          (trendSeries (g.map (fun r => r.born_alive))).getD i none) := by
  unfold tier2Group
  rw [List.getElem?_map, List.getElem?_enum, List.getElem?_eq_getElem h]
  rfl

/-! ## Claim theorems for `ml_features.py` -/

/-- C1: each Tier-2 history feature at row `i` of a sow's group is a
function of the strictly earlier rows only: the shifted expanding
mean/max at `i` equals the prefix statistic of the first `i` rows (NaN
at `i = 0`), `prev_parity_count` equals `i`, the trend equals the prior
regression slope and is NaN whenever fewer than 2 prior non-missing
`born_alive` points exist, and two groups agreeing on their first `i`
rows get identical Tier-2 features at row `i`. -/
theorem tier2_history_leak_safe :
    (∀ (s : List (Option ℚ)) (i : ℕ), i < s.length →
      (avgPrevSeries s).getD i none
          = (if i = 0 then none else prefixMeanOpt (s.take i))
      ∧ (maxPrevSeries s).getD i none
          = (if i = 0 then none else prefixMaxOpt (s.take i))
      ∧ (trendSeries s).getD i none = trendAt s i)
    ∧ (∀ (s : List (Option ℚ)) (i : ℕ),
        ((s.take i).filterMap id).length < 2 → trendAt s i = none)
    ∧ (∀ (g g2 : List FeatureRow) (i : ℕ), i < g.length → i < g2.length →
        (g.take i).map (fun r => r.born_alive)
          = (g2.take i).map (fun r => r.born_alive) →
        (g.take i).map (fun r => r.weaned)
          = (g2.take i).map (fun r => r.weaned) →
        (g.take i).map (fun r => r.stillborn)
          = (g2.take i).map (fun r => r.stillborn) →
        (tier2Group g)[i]?.map (fun r =>
            (r.avg_born_alive_prev, r.avg_weaned_prev, r.avg_stillborn_prev,
             r.max_born_alive_prev, r.prev_parity_count, r.trend_born_alive))
          = (tier2Group g2)[i]?.map (fun r =>
            (r.avg_born_alive_prev, r.avg_weaned_prev, r.avg_stillborn_prev,
             r.max_born_alive_prev, r.prev_parity_count, r.trend_born_alive))) := by
  refine ⟨?_, ?_, ?_⟩
  · intro s i h
    exact ⟨avgPrev_getD s i h, maxPrev_getD s i h, trendSeries_getD s i h⟩
  · intro s i h
    unfold trendAt
    by_cases hi : i < 2
    · simp [hi]
    · rw [if_neg hi, if_pos]
      show ((s.take i).enum.filterMap _).length < 2
      rw [show (s.take i).enum = List.enumFrom 0 (s.take i) from rfl,
        enumFrom_filterMap_length]
      exact h
  · intro g g2 i hg hg2 hba hwn hsb
    have hmt : ∀ (h : List FeatureRow) (sel : FeatureRow → Option ℚ),
        (h.map sel).take i = (h.take i).map sel := by
      intro h sel
      rw [List.map_take]
    rw [tier2Group_getElem g i hg, tier2Group_getElem g2 i hg2]
    have lba : i < (g.map (fun r => r.born_alive)).length := by
      simpa using hg
    have lwn : i < (g.map (fun r => r.weaned)).length := by simpa using hg
    have lsb : i < (g.map (fun r => r.stillborn)).length := by simpa using hg
    have lba2 : i < (g2.map (fun r => r.born_alive)).length := by
      simpa using hg2
    have lwn2 : i < (g2.map (fun r => r.weaned)).length := by simpa using hg2
    have lsb2 : i < (g2.map (fun r => r.stillborn)).length := by
      simpa using hg2
    have eba : (g.map (fun r => r.born_alive)).take i
        = (g2.map (fun r => r.born_alive)).take i := by
      rw [hmt g, hmt g2, hba]
    have ewn : (g.map (fun r => r.weaned)).take i
        = (g2.map (fun r => r.weaned)).take i := by
      rw [hmt g, hmt g2, hwn]
    have esb : (g.map (fun r => r.stillborn)).take i
        = (g2.map (fun r => r.stillborn)).take i := by
      rw [hmt g, hmt g2, hsb]
    rw [avgPrev_getD _ i lba, avgPrev_getD _ i lwn, avgPrev_getD _ i lsb,
      maxPrev_getD _ i lba, trendSeries_getD _ i lba,
      avgPrev_getD _ i lba2, avgPrev_getD _ i lwn2, avgPrev_getD _ i lsb2,
      maxPrev_getD _ i lba2, trendSeries_getD _ i lba2,
      eba, ewn, esb, trendAt_congr _ _ i eba]

/-- C1 witness: two concrete groups agreeing on their first two rows. -/
theorem tier2_history_leak_safe_witness :
    2 < w1g.length ∧ 2 < w1g2.length
    ∧ (w1g.take 2).map (fun r => r.born_alive)
        = (w1g2.take 2).map (fun r => r.born_alive)
    ∧ ((tier2Group w1g)[2]?.map (fun r =>
          (r.avg_born_alive_prev, r.avg_weaned_prev, r.avg_stillborn_prev,
           r.max_born_alive_prev, r.prev_parity_count, r.trend_born_alive))
        = (tier2Group w1g2)[2]?.map (fun r =>
          (r.avg_born_alive_prev, r.avg_weaned_prev, r.avg_stillborn_prev,
           r.max_born_alive_prev, r.prev_parity_count, r.trend_born_alive)))
    ∧ ((w1t.take 1).filterMap id).length < 2 ∧ trendAt w1t 1 = none := by
  have h := tier2_history_leak_safe
  refine ⟨by norm_num [w1g], by norm_num [w1g2], by decide, ?_, by decide, ?_⟩
  · exact h.2.2 w1g w1g2 2 (by norm_num [w1g]) (by norm_num [w1g2])
      (by decide) (by decide) (by decide)
  · exact h.2.1 w1t 1 (by decide)

theorem critGE_le_one (v p : Option ℚ) : critGE v p ≤ 1 := by
  cases v with
  | none => exact Nat.zero_le 1
  | some x =>
    cases p with
    | none => exact Nat.zero_le 1
    | some y =>
      show (if y ≤ x then 1 else 0) ≤ 1
      by_cases hxy : y ≤ x
      · rw [if_pos hxy]
      · rw [if_neg hxy]
        omega

theorem critLE_le_one (v p : Option ℚ) : critLE v p ≤ 1 := by
  cases v with
  | none => exact Nat.zero_le 1
  | some x =>
    cases p with
    | none => exact Nat.zero_le 1
    | some y =>
      show (if x ≤ y then 1 else 0) ≤ 1
      by_cases hxy : x ≤ y
      · rw [if_pos hxy]
      · rw [if_neg hxy]
        omega

/-- C8: the criteria count is an integer in `[0, 7]`, each output row's
label is the indicator of `count ≥ 4`, and `is_excellent = 1` holds iff
the row satisfies at least 4 of the 7 percentile criteria. -/
theorem label_criteria_sum (cols : List String) (rows : List FeatureRow)
    (i : ℕ) (r : FeatureRow) (h : rows[i]? = some r) :
    critSum cols rows r ≤ 7
    ∧ (build_label { cols := cols, rows := rows }).rows[i]? =
        some { r with is_excellent :=
          if 4 ≤ critSum cols rows r then 1 else 0 }
    ∧ (((build_label { cols := cols, rows := rows }).rows[i]?.map
          (fun x => x.is_excellent)) = some 1
        ↔ 4 ≤ critSum cols rows r) := by
  have bound7 : ∀ a b c d e f g : ℕ, a ≤ 1 → b ≤ 1 → c ≤ 1 → d ≤ 1 →
      e ≤ 1 → f ≤ 1 → g ≤ 1 → a + b + c + d + e + f + g ≤ 7 := by
    intros; omega
  have hifGE : ∀ (c : Prop) [Decidable c] (v p : Option ℚ),
      (if c then critGE v p else 0) ≤ 1 := by
    intro c _ v p
    split
    · exact critGE_le_one v p
    · exact Nat.zero_le 1
  have h1 : critSum cols rows r ≤ 7 := by
    simp only [critSum]
    exact bound7 _ _ _ _ _ _ _ (critGE_le_one _ _) (critGE_le_one _ _)
      (critGE_le_one _ _) (critLE_le_one _ _) (critLE_le_one _ _)
      (hifGE _ _ _) (hifGE _ _ _)
  have h2 : (build_label { cols := cols, rows := rows }).rows[i]? =
      some { r with is_excellent :=
        if 4 ≤ critSum cols rows r then 1 else 0 } := by
    show (rows.map _)[i]? = _
    rw [List.getElem?_map, h]
    rfl
  refine ⟨h1, h2, ?_⟩
  rw [h2]
  show some (if 4 ≤ critSum cols rows r then 1 else 0) = some 1
    ↔ 4 ≤ critSum cols rows r
  constructor
  · intro hs
    by_contra hc
    rw [if_neg hc] at hs
    exact absurd (Option.some.inj hs) (by omega)
  · intro hs
    rw [if_pos hs]

/-- C8 witness: a one-row frame whose single row is its own cohort. -/
theorem label_criteria_sum_witness :
    ([w8row][0]? = some w8row)
    ∧ critSum w8frame.cols [w8row] w8row ≤ 7
    ∧ (((build_label w8frame).rows[0]?.map (fun x => x.is_excellent))
          = some 1
        ↔ 4 ≤ critSum w8frame.cols [w8row] w8row) := by
  have h := label_criteria_sum w8frame.cols [w8row] 0 w8row rfl
  exact ⟨rfl, h.1, h.2.2⟩

/-! ## Claim theorems for `ml_engine.py` -/

/-- C3: with no trained model, `predict_all`, `get_global_shap` and
`get_individual_shap` each raise the "モデルが未学習です" (model not
trained) error; `predict_all` raises before touching `ml_predictions`,
so the error carries the table unchanged. -/
theorem not_trained_errors (featCache : Option Frame)
    (farrow : List MLFarrowRow) (pigJoin : List PigJoinRow)
    (sows : List SowMaster) (sscores : List SowScore)
    (pigAll : List PigletRow) (mlPred : List PredRow)
    (version now sid : String) (par : Option ℕ) :
    predictAll none featCache farrow pigJoin sows sscores pigAll mlPred
        version now
      = .error ("モデルが未学習です。先にtrain()を実行してください。", mlPred)
    ∧ getGlobalShap none featCache farrow pigJoin sows sscores pigAll
      = .error "モデルが未学習です。"
    ∧ getIndividualShap none featCache farrow pigJoin sows sscores pigAll
        sid par
      = .error "モデルが未学習です。" :=
  ⟨rfl, rfl, rfl⟩

/-- C4 (code bug): on an empty `farrowing_records` table,
`build_feature_matrix` returns the bare 12-column frame (the early
return skips the column-ensuring loop), the `FEATURE_COLS` selection
therefore fails, and `predict_all` with a trained model raises a
`KeyError` instead of returning an empty result — leaving
`ml_predictions` unchanged only because the raise happens before the
delete. -/
theorem empty_input_predict_raises :
    build_feature_matrix [] [] [] [] [] = { cols := LOAD_COLS, rows := [] }
    ∧ (FEATURE_COLS.all (fun c => decide (c ∈ LOAD_COLS))) = false
    ∧ predictAll (some dummyModel) none [] [] [] [] [] sampleMLPred "v1" "t1"
      = .error ("KeyError: columns not in index", sampleMLPred) := by
  exact ⟨rfl, by decide, rfl⟩

/-! ## Helper lemmas for GroupKFold -/

theorem argminGo_lt (rest : List ℕ) (i bi bv N : ℕ) (hbi : bi < N)
    (hiN : i + rest.length ≤ N) : argminGo rest i bi bv < N := by
  induction rest generalizing i bi bv with
  | nil => exact hbi
  | cons v r ih =>
    show (if v < bv then argminGo r (i + 1) i v
      else argminGo r (i + 1) bi bv) < N
    have hr : (i + 1) + r.length ≤ N := by
      simpa [Nat.add_comm, Nat.add_left_comm, Nat.add_assoc] using hiN
    by_cases hv : v < bv
    · rw [if_pos hv]
      exact ih (i + 1) i v (by omega) hr
    · rw [if_neg hv]
      exact ih (i + 1) bi bv hbi hr

theorem argminIdx_lt (l : List ℕ) (h : 0 < l.length) :
    argminIdx l < l.length := by
  match l, h with
  | v :: rest, _ =>
    show argminGo rest 1 0 v < rest.length + 1
    exact argminGo_lt rest 1 0 v (rest.length + 1) (by omega) (by omega)

theorem gkfAssignGo_snd_lt {α : Type} (l : List (α × ℕ)) (loads : List ℕ)
    (h5 : loads.length = 5) :
    ∀ p ∈ gkfAssignGo l loads, p.2 < 5 := by
  induction l generalizing loads with
  | nil => intro p hp; cases hp
  | cons gw rest ih =>
    intro p hp
    rw [show gkfAssignGo (gw :: rest) loads =
      (gw.1, argminIdx loads) ::
        gkfAssignGo rest
          (loads.set (argminIdx loads)
            (loads.getD (argminIdx loads) 0 + gw.2)) from rfl] at hp
    rcases List.mem_cons.mp hp with h | h
    · rw [h]
      show argminIdx loads < 5
      have := argminIdx_lt loads (by omega)
      omega
    · exact ih _ (by simpa using h5) p h

theorem foldOfGroup_lt {α : Type} [LinearOrder α] (groups : List α) (g : α) :
    foldOfGroup groups g < 5 := by
  unfold foldOfGroup
  cases hf : (gkfAssign groups).find? (fun p => decide (p.1 = g)) with
  | none => simp
  | some p =>
    have hp : p ∈ gkfAssign groups := List.mem_of_find?_eq_some hf
    have := gkfAssignGo_snd_lt (groupsBySizeDesc groups)
      (List.replicate 5 0) (by simp) p hp
    simpa using this

theorem range_filter_eq_length (n c : ℕ) (h : c < n) :
    ((List.range n).filter (fun x => decide (c = x))).length = 1 := by
  induction n with
  | zero => omega
  | succ m ih =>
    rw [List.range_succ, List.filter_append, List.length_append]
    by_cases hc : c < m
    · rw [ih hc]
      have hd : decide (c = m) = false := decide_eq_false (by omega)
      have : (List.filter (fun x => decide (c = x)) [m]).length = 0 := by
        simp [List.filter, hd]
      omega
    · have hcm : c = m := by omega
      have h0 : (List.filter (fun x => decide (c = x)) (List.range m)) = [] := by
        rw [List.filter_eq_nil_iff]
        intro a ha
        have : a < m := List.mem_range.mp ha
        simp
        omega
      rw [h0]
      simp [List.filter, hcm]

/-- Membership in a fold's validation set means the row's group label is
assigned to that fold. -/
theorem gkfValIdx_mem {α : Type} [LinearOrder α] (groups : List α)
    (x f : ℕ) (hx : x ∈ gkfValIdx groups f) :
    x < groups.length ∧
      ∃ gx, groups[x]? = some gx ∧ foldOfGroup groups gx = f := by
  unfold gkfValIdx at hx
  have hx2 := List.mem_filter.mp hx
  have hxr : x < groups.length := List.mem_range.mp hx2.1
  refine ⟨hxr, ?_⟩
  cases hgx : groups[x]? with
  | none =>
    rw [hgx] at hx2
    exact absurd hx2.2 (by simp)
  | some gx =>
    rw [hgx] at hx2
    exact ⟨gx, rfl, of_decide_eq_true hx2.2⟩

/-- C2: whenever `GroupKFold(5).split` succeeds, it yields 5 validation
sets that partition the row indices (each row lies in exactly one fold)
and never place two rows of the same `individual_id` group in two
distinct folds' validation sets. -/
theorem group_kfold_no_leakage {α : Type} [LinearOrder α] (groups : List α)
    (folds : List (List ℕ)) (hok : gkfSplit groups = .ok folds)
    (a b i j : ℕ) (ha : a < 5) (hb : b < 5) (hne : a ≠ b)
    (hi : i ∈ folds.getD a []) (hj : j ∈ folds.getD b []) :
    folds.length = 5
    ∧ (∀ x, x < groups.length →
        (folds.filter (fun l => decide (x ∈ l))).length = 1)
    ∧ groups[i]? ≠ none ∧ groups[j]? ≠ none ∧ groups[i]? ≠ groups[j]? := by
  have hfolds : folds = (List.range 5).map (gkfValIdx groups) := by
    unfold gkfSplit at hok
    split at hok
    · exact absurd hok (by simp)
    · injection hok with h
      exact h.symm
  subst hfolds
  have hgetD : ∀ f, f < 5 →
      ((List.range 5).map (gkfValIdx groups)).getD f [] = gkfValIdx groups f := by
    intro f hf
    rw [List.getD_eq_getElem?_getD, List.getElem?_map, List.getElem?_range hf]
    rfl
  rw [hgetD a ha] at hi
  rw [hgetD b hb] at hj
  obtain ⟨hilen, gi, hgi, hfi⟩ := gkfValIdx_mem groups i a hi
  obtain ⟨hjlen, gj, hgj, hfj⟩ := gkfValIdx_mem groups j b hj
  refine ⟨by simp, ?_, ?_, ?_, ?_⟩
  · intro x hx
    rw [List.filter_map, List.length_map]
    have hgx : groups[x]? = some groups[x] := List.getElem?_eq_getElem hx
    have hcong :
        List.filter ((fun l => decide (x ∈ l)) ∘ gkfValIdx groups)
          (List.range 5)
        = List.filter (fun f => decide (foldOfGroup groups groups[x] = f))
          (List.range 5) := by
      apply List.filter_congr
      intro f _
      apply decide_eq_decide.mpr
      constructor
      · intro hxf
        obtain ⟨_, gx, hgx2, hfx⟩ := gkfValIdx_mem groups x f hxf
        rw [hgx] at hgx2
        rw [Option.some.inj hgx2]
        exact hfx
      · intro hff
        unfold gkfValIdx
        apply List.mem_filter.mpr
        refine ⟨List.mem_range.mpr hx, ?_⟩
        rw [hgx]
        exact decide_eq_true hff
    rw [hcong]
    exact range_filter_eq_length 5 _ (foldOfGroup_lt groups _)
  · rw [hgi]
    simp
  · rw [hgj]
    simp
  · rw [hgi, hgj]
    intro hEq
    have hg : gi = gj := Option.some.inj hEq
    rw [hg] at hfi
    exact hne (by rw [← hfi, ← hfj])

/-- C2 witness: seven rows over six groups; fold 0 holds the two rows of
group `0`, fold 1 holds rows of groups `1` and `5`, and two rows drawn
from folds 0 and 1 carry distinct groups. -/
theorem group_kfold_no_leakage_witness :
    gkfSplit ([0, 0, 1, 2, 3, 4, 5] : List ℕ)
      = .ok [[0, 1], [2, 6], [5], [4], [3]]
    ∧ (0 ∈ ([[0, 1], [2, 6], [5], [4], [3]] : List (List ℕ)).getD 0 [])
    ∧ (2 ∈ ([[0, 1], [2, 6], [5], [4], [3]] : List (List ℕ)).getD 1 [])
    ∧ ([0, 0, 1, 2, 3, 4, 5] : List ℕ)[0]? ≠ ([0, 0, 1, 2, 3, 4, 5] : List ℕ)[2]? := by
  have hok : gkfSplit ([0, 0, 1, 2, 3, 4, 5] : List ℕ)
      = .ok [[0, 1], [2, 6], [5], [4], [3]] := rfl
  exact ⟨hok, by decide, by decide,
    (group_kfold_no_leakage ([0, 0, 1, 2, 3, 4, 5] : List ℕ) _ hok 0 1 0 2
      (by decide) (by decide) (by decide) (by decide) (by decide)).2.2.2.2⟩

end SowScoring
